import Mathlib

/-!
Verification of the MoonTV live-television module: a shallow embedding of
the playlist parser (src/lib/live-parser.ts), the catalog cache and query
surface (src/app/api/live/route.ts), the proxy gateway
(src/app/api/proxy/[...path]/route.ts) and the playback page
(live play component: loadVideo / handleRetry / handleSourceSelect /
processUrl), together with theorems settling the specification claims.

JavaScript strings are modelled as Lean strings; all keywords involved are
ASCII or BMP CJK characters, for which per-character operations agree with
the UTF-16 code-unit operations used by the source. The JavaScript string
primitives used by the source (startsWith, includes, split, join, trim,
substring, toLowerCase) are modelled by structurally recursive functions
over the character list of the string, so that every definition evaluates
inside the kernel.
-/

/-- Models JavaScript String.prototype.toLowerCase for the inputs at issue:
ASCII letters are lowered, CJK characters (which have no case) are kept. -/
def jsToLower (s : String) : String :=
  String.mk (s.data.map Char.toLower)

/-- Models JavaScript String.prototype.trim (strips surrounding whitespace). -/
def jsTrim (s : String) : String :=
  String.mk (((s.data.dropWhile Char.isWhitespace).reverse.dropWhile Char.isWhitespace).reverse)

/-- Does the second list occur as a prefix of the first? -/
def listStartsWith : List Char → List Char → Bool
  | _, [] => true
  | [], _ :: _ => false
  | a :: s, b :: p => a == b && listStartsWith s p

/-- Does the second list occur as a contiguous sublist of the first? -/
def listHasSub : List Char → List Char → Bool
  | [], p => p.isEmpty
  | a :: rest, p => listStartsWith (a :: rest) p || listHasSub rest p

/-- Models JavaScript String.prototype.includes. -/
def strIncludes (s pat : String) : Bool :=
  listHasSub s.data pat.data

/-- Models JavaScript String.prototype.startsWith. -/
def jsStartsWith (s pat : String) : Bool :=
  listStartsWith s.data pat.data

/-- Splits a character list at every occurrence of the separator character;
models JavaScript String.prototype.split with a one-character separator. -/
def splitOnCharList (sc : Char) : List Char → List (List Char)
  | [] => [[]]
  | c :: rest =>
    if c == sc then [] :: splitOnCharList sc rest
    else
      match splitOnCharList sc rest with
      | [] => [[c]]
      | h :: t => (c :: h) :: t

/-- String-level wrapper of splitOnCharList. -/
def jsSplitOnChar (sc : Char) (s : String) : List String :=
  (splitOnCharList sc s.data).map String.mk

/-- Joins character lists with a separator character; models
Array.prototype.join with a one-character separator. -/
def joinWithChar (sc : Char) : List (List Char) → List Char
  | [] => []
  | [x] => x
  | x :: y :: rest => x ++ sc :: joinWithChar sc (y :: rest)

/-- String-level wrapper of joinWithChar for the comma separator. -/
def joinComma (parts : List String) : String :=
  String.mk (joinWithChar ',' (parts.map String.data))

/-- Replaces the first occurrence of the (nonempty) pattern by the
replacement; models JavaScript String.prototype.replace with a plain
string pattern. -/
def replaceFirstList (pat repl : List Char) : List Char → List Char
  | [] => []
  | c :: rest =>
    if listStartsWith (c :: rest) pat then
      repl ++ (c :: rest).drop pat.length
    else c :: replaceFirstList pat repl rest

/-- String-level wrapper of replaceFirstList. -/
def jsReplaceFirst (s pat repl : String) : String :=
  String.mk (replaceFirstList pat.data repl.data s.data)

/-- Models JavaScript String.prototype.substring with only a start index
(all characters here are single UTF-16 code units). -/
def jsDropChars (s : String) (n : Nat) : String :=
  String.mk (s.data.drop n)

/-- Stream protocols distinguished by the FormatDetector. -/
inductive StreamFormat
  | HLS
  | DASH
  | FLV
  | RTMP
deriving DecidableEq, Repr

/-- Resolution tiers distinguished by the FormatDetector. -/
inductive Quality
  | SD
  | HD
  | FHD
deriving DecidableEq, Repr

/-- Embedding of LiveChannelParser.detectStreamFormat (live-parser.ts). -/
def detectStreamFormat (url : String) : StreamFormat :=
  let urlLower := jsToLower url
  if strIncludes urlLower ".m3u8" || strIncludes urlLower "hls" then StreamFormat.HLS
  else if strIncludes urlLower ".mpd" || strIncludes urlLower "dash" then StreamFormat.DASH
  else if strIncludes urlLower ".flv" then StreamFormat.FLV
  else if jsStartsWith urlLower "rtmp://" then StreamFormat.RTMP
  else StreamFormat.HLS

/-- Embedding of LiveChannelParser.detectQuality (live-parser.ts): the HD
branch is tested first, the FHD branch second. -/
def detectQuality (name : String) : Quality :=
  let nameLower := jsToLower name
  if strIncludes nameLower "hd" || strIncludes nameLower "高清" then Quality.HD
  else if strIncludes nameLower "fhd" || strIncludes nameLower "1080p" ||
      strIncludes nameLower "全高清" then Quality.FHD
  else Quality.SD

/-- The HD-tier keyword test of detectQuality. -/
def hdKeyword (name : String) : Prop :=
  strIncludes (jsToLower name) "hd" = true ∨ strIncludes (jsToLower name) "高清" = true

/-- The FHD-tier keyword test of detectQuality. -/
def fhdKeyword (name : String) : Prop :=
  strIncludes (jsToLower name) "fhd" = true ∨ strIncludes (jsToLower name) "1080p" = true ∨
    strIncludes (jsToLower name) "全高清" = true

/-- Claim C1, counterexample: the name "CCTV5 FHD" contains the keyword
"fhd" (case-insensitively), yet detectQuality returns HD, not FHD, because
the source tests the HD tier first and "fhd" contains "hd". -/
theorem detectQuality_fhd_name_cex :
    strIncludes (jsToLower "CCTV5 FHD") "fhd" = true ∧
    detectQuality "CCTV5 FHD" = Quality.HD ∧ Quality.HD ≠ Quality.FHD := by
  decide

/-- Claim C1, amended: detectQuality is a case-insensitive keyword match on
the channel name only, with the HD tier tested before the FHD tier: a name
containing "hd" or "高清" yields HD (this covers every name containing
"fhd" or "全高清"); otherwise a name hitting the FHD keyword set (in
effect, containing "1080p") yields FHD; otherwise SD. The three examples of
the specification still hold. -/
theorem detectQuality_tier_order (name : String) :
    (detectQuality name = Quality.HD ↔ hdKeyword name) ∧
    (detectQuality name = Quality.FHD ↔ (¬ hdKeyword name ∧ fhdKeyword name)) ∧
    (detectQuality name = Quality.SD ↔ (¬ hdKeyword name ∧ ¬ fhdKeyword name)) ∧
    detectQuality "CCTV1 高清" = Quality.HD ∧
    detectQuality "CCTV1 1080p" = Quality.FHD ∧
    detectQuality "CCTV1" = Quality.SD := by
  refine ⟨?_, ?_, ?_, by decide, by decide, by decide⟩ <;>
    · simp only [detectQuality, hdKeyword, fhdKeyword]
      rcases h1 : strIncludes (jsToLower name) "hd" <;>
        rcases h2 : strIncludes (jsToLower name) "高清" <;>
          rcases h3 : strIncludes (jsToLower name) "fhd" <;>
            rcases h4 : strIncludes (jsToLower name) "1080p" <;>
              rcases h5 : strIncludes (jsToLower name) "全高清" <;>
                simp [h1, h2, h3, h4, h5]

/-- Playlist item produced by parseM3U and parseJSON (types/live.ts):
parseM3U only ever fills the name and url fields. -/
structure LivePlaylistItem where
  name : String
  url : String
deriving DecidableEq, Repr

/-- Title extraction of the EXTINF branch of parseM3U: the payload is split
on commas, the first piece is dropped, and the remaining pieces are joined
back with commas and trimmed — everything after the first comma. -/
def extinfTitle (info : String) : String :=
  jsTrim (joinComma (jsSplitOnChar ',' info).tail)

/-- The direct "Name,URL" branch of parseM3U: name is the text before the
first comma, url the remainder; both must be nonempty before trimming. -/
def commaHttpItem (line : String) : Option LivePlaylistItem :=
  match jsSplitOnChar ',' line with
  | [] => none
  | nm :: parts =>
    let url := joinComma parts
    if nm ≠ "" ∧ url ≠ "" then some { name := jsTrim nm, url := jsTrim url } else none

/-- A non-EXTINF line emits an item exactly when it contains ",http" and
splits into a nonempty name and url. -/
def handleDirectLine (line : String) (tail : List LivePlaylistItem) : List LivePlaylistItem :=
  if strIncludes line ",http" then
    match commaHttpItem line with
    | some it => it :: tail
    | none => tail
  else tail

/-- The line loop of LiveChannelParser.parseM3U over the trimmed nonempty
lines: an EXTINF line whose successor does not start with "#" is paired
with that successor, which is then skipped. -/
def parseM3ULines : List String → List LivePlaylistItem
  | [] => []
  | [line] =>
    if jsStartsWith line "#EXTM3U" then []
    else if jsStartsWith line "#EXTINF:" then []
    else handleDirectLine line []
  | line :: next :: rest =>
    if jsStartsWith line "#EXTM3U" then parseM3ULines (next :: rest)
    else if jsStartsWith line "#EXTINF:" then
      if jsStartsWith next "#" then parseM3ULines (next :: rest)
      else { name := extinfTitle (jsDropChars line 8), url := next } :: parseM3ULines rest
    else handleDirectLine line (parseM3ULines (next :: rest))

/-- Embedding of LiveChannelParser.parseM3U (live-parser.ts). -/
def parseM3U (content : String) : List LivePlaylistItem :=
  parseM3ULines (((jsSplitOnChar '\n' content).map jsTrim).filter (fun l => l ≠ ""))

/-- Claim C2, counterexample: in an EXTINF payload holding two commas the
title produced by the code is everything after the first comma, not
everything after the last comma as the claim states. -/
theorem parseM3U_last_comma_cex :
    parseM3U "#EXTINF:-1 group,Title,Sub\nhttp://x" =
      [{ name := "Title,Sub", url := "http://x" }] ∧
    ("Title,Sub" : String) ≠ "Sub" := by
  constructor
  · rfl
  · decide

/-- Claim C2, amended: every line starting with "#EXTINF:" whose following
line does not start with "#" is paired with that line as the URL and emits
exactly one item whose name is everything after the FIRST comma of the
payload (trimmed), in file order; the concrete example of the
specification holds as stated. -/
theorem parseM3U_extinf_first_comma (line next : String) (rest : List String)
    (h1 : jsStartsWith line "#EXTM3U" = false)
    (h2 : jsStartsWith line "#EXTINF:" = true)
    (h3 : jsStartsWith next "#" = false) :
    parseM3ULines (line :: next :: rest) =
      { name := extinfTitle (jsDropChars line 8), url := next } :: parseM3ULines rest ∧
    parseM3U "#EXTM3U\n#EXTINF:-1,Channel A\nhttp://a\n" =
      [{ name := "Channel A", url := "http://a" }] := by
  constructor
  · simp [parseM3ULines, h1, h2, h3]
  · rfl

/-- Witness for parseM3U_extinf_first_comma at a concrete EXTINF pair. -/
theorem parseM3U_extinf_first_comma_witness :
    parseM3ULines ["#EXTINF:-1,X", "http://u"] =
      { name := extinfTitle (jsDropChars "#EXTINF:-1,X" 8), url := "http://u" } ::
        parseM3ULines [] ∧
    parseM3U "#EXTM3U\n#EXTINF:-1,Channel A\nhttp://a\n" =
      [{ name := "Channel A", url := "http://a" }] :=
  parseM3U_extinf_first_comma "#EXTINF:-1,X" "http://u" []
    (by decide) (by decide) (by decide)

/-- Channel record (types/live.ts LiveChannel), restricted to the fields
the parser and the query surface populate or read. -/
structure LiveChannel where
  id : String
  name : String
  urls : List String
  category : String
  isActive : Bool
  format : Option StreamFormat
  quality : Option Quality
  language : String
  country : String
deriving DecidableEq, Repr

/-- Category record (types/live.ts LiveCategory). -/
structure LiveCategory where
  id : String
  name : String
  channels : List LiveChannel
  sortOrder : Nat
deriving DecidableEq, Repr

/-- A character allowed to survive the id-sanitising regex
of parseChineseTVFormat: ASCII alphanumerics, CJK ideographs
U+4E00 to U+9FA5, and the hyphen. -/
def idSafeChar (c : Char) : Bool :=
  (('a' ≤ c && c ≤ 'z') || ('A' ≤ c && c ≤ 'Z') || ('0' ≤ c && c ≤ '9') ||
    (0x4e00 ≤ c.toNat && c.toNat ≤ 0x9fa5) || c == '-')

/-- Models the regex replacement of every character outside the safe class
by a hyphen, as used for channel and category ids. -/
def sanitizeId (s : String) : String :=
  String.mk (s.data.map (fun c => if idSafeChar c then c else '-'))

/-- Splits a character list at the first occurrence of the given character,
returning the pieces before and after it; none when the character is
absent. Models indexOf followed by the two substring calls. -/
def splitAtFirstChar (sc : Char) : List Char → Option (List Char × List Char)
  | [] => none
  | c :: rest =>
    if c == sc then some ([], rest)
    else
      match splitAtFirstChar sc rest with
      | none => none
      | some (a, b) => some (c :: a, b)

/-- Lookup in the insertion-ordered association list modelling the
JavaScript Map of parseChineseTVFormat. -/
def mapGet (m : List (String × List LiveChannel)) (k : String) : Option (List LiveChannel) :=
  (m.find? (fun p => p.1 == k)).map (fun p => p.2)

/-- Update in the insertion-ordered association list: an existing key keeps
its position, a new key is appended — exactly the JavaScript Map.set
insertion-order semantics. -/
def mapSet (m : List (String × List LiveChannel)) (k : String) (v : List LiveChannel) :
    List (String × List LiveChannel) :=
  if m.any (fun p => p.1 == k) then
    m.map (fun p => if p.1 == k then (k, v) else p)
  else m ++ [(k, v)]

/-- Applies the update to the first list element satisfying the predicate,
leaving everything else unchanged; models Array.prototype.find followed by
in-place mutation of the found element. -/
def updateFirst (p : LiveChannel → Bool) (f : LiveChannel → LiveChannel) :
    List LiveChannel → List LiveChannel
  | [] => []
  | c :: cs => if p c then f c :: cs else c :: updateFirst p f cs

/-- The channel-line body of parseChineseTVFormat: if a channel with this
name already exists in the category its url list is extended by the new
url unless already present; otherwise a new channel is created, deriving
format and quality from this first url and name. -/
def upsertChannel (chs : List LiveChannel) (cat nm url : String) : List LiveChannel :=
  if chs.any (fun ch => ch.name == nm) then
    updateFirst (fun ch => ch.name == nm)
      (fun ch => if ch.urls.contains url then ch else { ch with urls := ch.urls ++ [url] }) chs
  else
    chs ++ [{ id := sanitizeId (cat ++ "-" ++ nm), name := nm, urls := [url],
              category := cat, isActive := true,
              format := some (detectStreamFormat url),
              quality := some (detectQuality nm),
              language := "zh-CN", country := "CN" }]

/-- Loop state of parseChineseTVFormat: the active category name and the
insertion-ordered category map. -/
structure ParseState where
  currentCategory : String
  categories : List (String × List LiveChannel)
deriving Repr

/-- One iteration of the line loop of parseChineseTVFormat: a line
containing ",#genre#" switches the active category (creating an empty
bucket when new); other non-"#" lines containing the separator "→"
followed by a comma upsert a channel into the active category. -/
def processLine (st : ParseState) (line : String) : ParseState :=
  if strIncludes line ",#genre#" then
    let cat := jsTrim (jsReplaceFirst line ",#genre#" "")
    { currentCategory := cat,
      categories := if (mapGet st.categories cat).isSome then st.categories
                    else mapSet st.categories cat [] }
  else if jsStartsWith line "#" then st
  else
    match splitAtFirstChar '→' line.data with
    | none => st
    | some (_, afterArrow) =>
      match splitAtFirstChar ',' afterArrow with
      | none => st
      | some (nmRaw, urlRaw) =>
        let nm := jsTrim (String.mk nmRaw)
        let url := jsTrim (String.mk urlRaw)
        if nm = "" ∨ url = "" then st
        else
          let chs := (mapGet st.categories st.currentCategory).getD []
          { st with categories :=
              mapSet st.categories st.currentCategory (upsertChannel chs st.currentCategory nm url) }

/-- Stable insertion of an element into an already-sorted list with
respect to the boolean comparison le. -/
def insertSorted (le : LiveChannel → LiveChannel → Bool) (a : LiveChannel) :
    List LiveChannel → List LiveChannel
  | [] => [a]
  | b :: bs => if le a b then a :: b :: bs else b :: insertSorted le a bs

/-- Stable sort by insertion; models the stable Array.prototype.sort of the
source, where le a b states that the comparator result is nonpositive. -/
def stableSortBy (le : LiveChannel → LiveChannel → Bool) : List LiveChannel → List LiveChannel
  | [] => []
  | a :: as => insertSorted le a (stableSortBy le as)

/-- Stable insertion for categories (final sortOrder sort of the parser). -/
def insertSortedCat (le : LiveCategory → LiveCategory → Bool) (a : LiveCategory) :
    List LiveCategory → List LiveCategory
  | [] => [a]
  | b :: bs => if le a b then a :: b :: bs else b :: insertSortedCat le a bs

/-- Stable sort for categories. -/
def stableSortCats (le : LiveCategory → LiveCategory → Bool) : List LiveCategory → List LiveCategory
  | [] => []
  | a :: as => insertSortedCat le a (stableSortCats le as)

/-- The output stage of parseChineseTVFormat: empty categories are dropped,
the remaining ones are numbered in first-seen order, each channel list is
sorted by name with the locale comparator, and the result is finally
sorted by sortOrder. The locale comparator of the source
(localeCompare with the zh-CN locale) is passed in as zhLe, where
zhLe a b states that the comparator result is nonpositive. -/
def finalizeCategories (zhLe : String → String → Bool)
    (m : List (String × List LiveChannel)) : List LiveCategory :=
  let nonEmpty := m.filter (fun p => !p.2.isEmpty)
  let result := nonEmpty.enum.map (fun q =>
    { id := sanitizeId q.2.1, name := q.2.1,
      channels := stableSortBy (fun a b => zhLe a.name b.name) q.2.2,
      sortOrder := q.1 })
  stableSortCats (fun a b => decide (a.sortOrder ≤ b.sortOrder)) result

/-- Embedding of LiveChannelParser.parseChineseTVFormat (live-parser.ts),
the delimited bilingual catalog parser. -/
def parseChineseTVFormat (zhLe : String → String → Bool) (content : String) : List LiveCategory :=
  let lines := ((jsSplitOnChar '\n' content).map jsTrim).filter (fun l => l ≠ "")
  let st := lines.foldl processLine { currentCategory := "未分类", categories := [] }
  finalizeCategories zhLe st.categories

/-- Helper: updateFirst rewrites exactly the first element satisfying the
predicate and keeps every other element in place. -/
theorem updateFirst_append (p : LiveChannel → Bool) (f : LiveChannel → LiveChannel)
    (pre post : List LiveChannel) (ch : LiveChannel)
    (hpre : ∀ c ∈ pre, p c = false) (hch : p ch = true) :
    updateFirst p f (pre ++ ch :: post) = pre ++ f ch :: post := by
  induction pre with
  | nil => simp [updateFirst, hch]
  | cons a as ih =>
    have ha : p a = false := hpre a (by simp)
    simp only [List.cons_append, updateFirst, ha, Bool.false_eq_true, if_false, List.append_eq]
    exact congrArg (List.cons a) (ih (fun c hc => hpre c (by simp [hc])))

/-- The delimited input of the specification scenario: two ",#genre#"
markers and, inside the second category, three lines for the same channel
name with urls b, c and again b. -/
def demoDelimitedInput : String :=
  "央视,#genre#\nx→CCTV1,http://a\n卫视,#genre#\nx→湖南卫视,http://b\nx→湖南卫视,http://c\nx→湖南卫视,http://b"

/-- The channel the scenario creates from its first 湖南卫视 line. -/
def demoChannel : LiveChannel :=
  { id := "卫视-湖南卫视", name := "湖南卫视", urls := ["http://b"], category := "卫视",
    isActive := true, format := some StreamFormat.HLS, quality := some Quality.SD,
    language := "zh-CN", country := "CN" }

/-- Claim C5: on a repeated channel name within a category the new url is
appended to the existing channel unless already present (string equality),
the channel itself (id, format, quality, position) being left unchanged;
on a fresh name exactly one channel is created with format and quality
derived from the first url and name; and on the specification scenario the
second category holds one channel with both urls in encounter order and no
duplicate. -/
theorem parseChineseTV_dedupe (zhLe : String → String → Bool)
    (pre post : List LiveChannel) (ch : LiveChannel) (cat url : String)
    (hpre : ∀ c ∈ pre, (c.name == ch.name) = false) :
    upsertChannel (pre ++ ch :: post) cat ch.name url =
      pre ++ (if ch.urls.contains url then ch
              else { ch with urls := ch.urls ++ [url] }) :: post ∧
    (∀ chs nm u, chs.any (fun c => c.name == nm) = false →
      upsertChannel chs cat nm u =
        chs ++ [{ id := sanitizeId (cat ++ "-" ++ nm), name := nm, urls := [u],
                  category := cat, isActive := true,
                  format := some (detectStreamFormat u),
                  quality := some (detectQuality nm),
                  language := "zh-CN", country := "CN" }]) ∧
    parseChineseTVFormat zhLe demoDelimitedInput =
      [{ id := "央视", name := "央视",
         channels := [{ id := "央视-CCTV1", name := "CCTV1", urls := ["http://a"],
                        category := "央视", isActive := true,
                        format := some StreamFormat.HLS, quality := some Quality.SD,
                        language := "zh-CN", country := "CN" }],
         sortOrder := 0 },
       { id := "卫视", name := "卫视",
         channels := [{ demoChannel with urls := ["http://b", "http://c"] }],
         sortOrder := 1 }] := by
  refine ⟨?_, ?_, ?_⟩
  · have hmem : (pre ++ ch :: post).any (fun c => c.name == ch.name) = true := by
      simp [List.any_eq_true]
    simp only [upsertChannel, hmem, if_true]
    exact updateFirst_append _ _ pre post ch hpre (by simp)
  · intro chs nm u hnone
    simp [upsertChannel, hnone]
  · rfl

/-- Witness for parseChineseTV_dedupe at the scenario channel. -/
theorem parseChineseTV_dedupe_witness :
    upsertChannel [demoChannel] "卫视" "湖南卫视" "http://c" =
      [{ demoChannel with urls := ["http://b", "http://c"] }] ∧
    upsertChannel [] "卫视" "湖南卫视" "http://b" = [demoChannel] :=
  ⟨(parseChineseTV_dedupe (fun _ _ => true) [] [] demoChannel "卫视" "http://c"
      (by simp)).1,
   (parseChineseTV_dedupe (fun _ _ => true) [] [] demoChannel "卫视" "http://c"
      (by simp)).2.1 [] "湖南卫视" "http://b" (by decide)⟩

/-- The components of a parsed absolute URL used by the rewriters: host
(with port), pathname and search, as exposed by the platform URL object. -/
structure UrlParts where
  host : String
  pathname : String
  search : String
deriving DecidableEq, Repr

/-- Parses the remainder of an absolute http(s) URL after the scheme.
Models the platform URL constructor on such URLs: the host runs to the
first "/", "?" or "#"; an empty or space-containing host makes the
constructor throw (none); a missing path normalises to "/"; the search
starts at "?" and stops before "#", an empty query yielding "". -/
def parseAfterScheme (rest : List Char) : Option UrlParts :=
  let hostChars := rest.takeWhile (fun c => !(c == '/' || c == '?' || c == '#'))
  let tail := rest.dropWhile (fun c => !(c == '/' || c == '?' || c == '#'))
  if hostChars.isEmpty || hostChars.any (fun c => c == ' ') then none
  else
    let pathChars := tail.takeWhile (fun c => !(c == '?' || c == '#'))
    let afterPath := tail.dropWhile (fun c => !(c == '?' || c == '#'))
    let pathname := if pathChars.isEmpty then "/" else String.mk pathChars
    let search :=
      match afterPath with
      | '?' :: qs =>
        let q := qs.takeWhile (fun c => !(c == '#'))
        if q.isEmpty then "" else String.mk ('?' :: q)
      | _ => ""
    some { host := String.mk hostChars, pathname := pathname, search := search }

/-- Models the platform URL constructor for absolute http(s) URLs, the only
ones the rewriters feed it; a thrown TypeError is modelled as none. -/
def jsParseUrl (url : String) : Option UrlParts :=
  if jsStartsWith url "https://" then parseAfterScheme (url.data.drop 8)
  else if jsStartsWith url "http://" then parseAfterScheme (url.data.drop 7)
  else none

/-- Embedding of processUrl of the live play page: on an http: page an
https:// source is rewritten under the /proxy/ prefix, on an https: page
an http:// source is rewritten under the /httpproxy/ prefix, anything else
passes through. The URL constructor throwing is modelled as none — this
function has no catch of its own. -/
def processUrl (pageProtocol url : String) : Option String :=
  if pageProtocol = "http:" ∧ jsStartsWith url "https://" = true then
    (jsParseUrl url).map (fun p => "/proxy/" ++ p.host ++ p.pathname ++ p.search)
  else if jsStartsWith url "http://" = true ∧ pageProtocol = "https:" then
    (jsParseUrl url).map (fun p => "/httpproxy/" ++ p.host ++ p.pathname ++ p.search)
  else some url

/-- Embedding of processChannelUrls of the channel list component: on an
http: page every https:// url of the channel is rewritten under /proxy/,
with a catch that returns the original url when the URL constructor
throws; on any other page protocol the channel is returned unchanged. -/
def processChannelUrls (pageProtocol : String) (urls : List String) : List String :=
  if pageProtocol = "http:" then
    urls.map (fun url =>
      if jsStartsWith url "https://" then
        match jsParseUrl url with
        | some p => "/proxy/" ++ p.host ++ p.pathname ++ p.search
        | none => url
      else url)
  else urls

/-- Claim C6 (code bug): the string "https://" is a malformed URL (its host
is empty, so the URL constructor throws); processUrl of the play page
propagates that throw (none) instead of passing the url through unchanged,
while processChannelUrls of the channel list catches it and returns the
url unchanged, as the specification prescribes. -/
theorem processUrl_malformed_throws :
    jsParseUrl "https://" = none ∧
    processUrl "http:" "https://" = none ∧
    processChannelUrls "http:" ["https://", "http://ok/x"] = ["https://", "http://ok/x"] := by
  decide

/-- Claim C8: on an http: page an https target is rewritten to the
same-origin /proxy/ path made of host, pathname and search; on an https:
page an http target is rewritten under the distinct /httpproxy/ prefix;
in every other combination the url is returned unchanged; the two tunnel
prefixes differ. -/
theorem processUrl_rewrite_mapping (page url : String) (p : UrlParts)
    (hp : jsParseUrl url = some p) :
    (page = "http:" → jsStartsWith url "https://" = true →
      processUrl page url = some ("/proxy/" ++ p.host ++ p.pathname ++ p.search)) ∧
    (page = "https:" → jsStartsWith url "http://" = true →
      processUrl page url = some ("/httpproxy/" ++ p.host ++ p.pathname ++ p.search)) ∧
    ((page = "http:" → jsStartsWith url "https://" = false) →
     (page = "https:" → jsStartsWith url "http://" = false) →
      processUrl page url = some url) ∧
    ("/proxy/" : String) ≠ "/httpproxy/" := by
  refine ⟨?_, ?_, ?_, by decide⟩
  · intro hpage hhttps
    simp [processUrl, hpage, hhttps, hp]
  · intro hpage hhttp
    have : ¬ (page = "http:" ∧ jsStartsWith url "https://" = true) := by
      intro hc
      rw [hpage] at hc
      simp at hc
    simp [processUrl, this, hpage, hhttp, hp]
  · intro hno1 hno2
    by_cases h1 : page = "http:"
    · simp [processUrl, h1, hno1 h1]
    · by_cases h2 : page = "https:"
      · simp [processUrl, h1, h2, hno2 h2]
      · simp [processUrl, h1, h2]

/-- Witness for processUrl_rewrite_mapping at the specification example
url on both page protocols. -/
theorem processUrl_rewrite_mapping_witness :
    processUrl "http:" "https://a.b/c?d=1" = some ("/proxy/" ++ "a.b" ++ "/c" ++ "?d=1") ∧
    processUrl "https:" "https://a.b/c?d=1" = some "https://a.b/c?d=1" :=
  ⟨(processUrl_rewrite_mapping "http:" "https://a.b/c?d=1"
      { host := "a.b", pathname := "/c", search := "?d=1" } (by decide)).1 rfl (by decide),
   (processUrl_rewrite_mapping "https:" "https://a.b/c?d=1"
      { host := "a.b", pathname := "/c", search := "?d=1" } (by decide)).2.2.1
     (fun h => by simp at h) (fun _ => by decide)⟩

/-- The streamStatus values of the live play page. -/
inductive StreamStatus
  | idle
  | connecting
  | connected
  | error
deriving DecidableEq, Repr

/-- A playback session of the live play page: the channel candidate urls,
the page environment, the current candidate index and stream status, the
engine reference stored on the media element (video.hls), and — for the
single-instance invariant — the identities of every engine instance
created and not yet destroyed, with a counter supplying fresh ones. -/
structure Session where
  urls : List String
  pageProtocol : String
  hlsSupported : Bool
  currentUrlIndex : Nat
  status : StreamStatus
  engine : Option Nat
  liveEngines : List Nat
  nextEngineId : Nat
deriving DecidableEq, Repr

/-- The inline cleanup of handleRetry and handleSourceSelect: if a hls
instance is stored on the media element it is destroyed and the reference
nulled; otherwise nothing happens. -/
def destroyHls (s : Session) : Session :=
  { s with engine := none,
           liveEngines := match s.engine with
                          | some e => s.liveEngines.erase e
                          | none => s.liveEngines }

/-- One run of loadVideo of the live play page: the status is set to
connecting, the current candidate url is resolved through processUrl, and
for an adaptive (.m3u8) url with hls support a NEW engine instance is
created and stored — without destroying any engine instance already
attached. A missing candidate or a throwing URL constructor is absorbed
by the surrounding try/catch into the error status. -/
def loadVideo (s : Session) : Session :=
  let s1 := { s with status := StreamStatus.connecting }
  match s.urls.get? s.currentUrlIndex with
  | none => { s1 with status := StreamStatus.error }
  | some orig =>
    match processUrl s.pageProtocol orig with
    | none => { s1 with status := StreamStatus.error }
    | some url =>
      if strIncludes url ".m3u8" && s.hlsSupported then
        { s1 with engine := some s1.nextEngineId,
                  liveEngines := s1.liveEngines ++ [s1.nextEngineId],
                  nextEngineId := s1.nextEngineId + 1 }
      else s1

/-- Embedding of handleRetry of the live play page: destroy the stored hls
instance, then either advance to the next candidate (the index change
makes the effect hook rerun loadVideo) or wrap to index 0 and call
loadVideo directly. -/
def handleRetry (s : Session) : Session :=
  let s1 := destroyHls s
  if s1.currentUrlIndex < s1.urls.length - 1 then
    loadVideo { s1 with currentUrlIndex := s1.currentUrlIndex + 1 }
  else
    loadVideo { s1 with currentUrlIndex := 0 }

/-- Embedding of handleSourceSelect of the live play page: a no-op on the
current index, otherwise destroy the stored hls instance and re-enter at
the chosen index (the index change makes the effect hook rerun loadVideo). -/
def handleSourceSelect (i : Nat) (s : Session) : Session :=
  if i = s.currentUrlIndex then s
  else loadVideo { (destroyHls s) with currentUrlIndex := i }

/-- A fatal engine or native media error: the status becomes error. -/
def fatalErrorStep (s : Session) : Session :=
  { s with status := StreamStatus.error }

/-- At most one live engine instance, and any live instance is the one the
session currently references. -/
def SingleEngine (s : Session) : Prop :=
  s.liveEngines.length ≤ 1 ∧ ∀ e ∈ s.liveEngines, s.engine = some e

/-- The three-candidate session of the specification scenario. -/
def scenarioSession : Session :=
  { urls := ["http://h/1.m3u8", "http://h/2.m3u8", "http://h/3.m3u8"],
    pageProtocol := "http:", hlsSupported := true, currentUrlIndex := 0,
    status := StreamStatus.idle, engine := none, liveEngines := [], nextEngineId := 0 }

/-- Scenario state after the first fatal error and retry. -/
def scenarioStep1 : Session := handleRetry (fatalErrorStep (loadVideo scenarioSession))

/-- Scenario state after the second fatal error and retry. -/
def scenarioStep2 : Session := handleRetry (fatalErrorStep scenarioStep1)

/-- Scenario state after the third fatal error and retry. -/
def scenarioStep3 : Session := handleRetry (fatalErrorStep scenarioStep2)

/-- Helper: loadVideo keeps the candidate list and the current index. -/
theorem loadVideo_keeps_position (s : Session) :
    (loadVideo s).urls = s.urls ∧ (loadVideo s).currentUrlIndex = s.currentUrlIndex := by
  unfold loadVideo
  rcases h1 : s.urls.get? s.currentUrlIndex with _ | orig
  · simp [h1]
  · simp only [h1]
    rcases h2 : processUrl s.pageProtocol orig with _ | url
    · simp [h2]
    · simp only [h2]
      split <;> simp

/-- Helper: when the candidate at the current index exists and its rewrite
does not throw, loadVideo leaves the session in the connecting status. -/
theorem loadVideo_connecting (s : Session) (u : String)
    (hu : s.urls.get? s.currentUrlIndex = some u)
    (hok : (processUrl s.pageProtocol u).isSome = true) :
    (loadVideo s).status = StreamStatus.connecting := by
  unfold loadVideo
  rw [hu]
  rcases h2 : processUrl s.pageProtocol u with _ | url
  · rw [h2] at hok
    simp at hok
  · simp only [h2]
    split <;> rfl

/-- Helper: the inline detach keeps the candidate list. -/
theorem destroyHls_urls (s : Session) : (destroyHls s).urls = s.urls := rfl

/-- Helper: the inline detach keeps the current index. -/
theorem destroyHls_index (s : Session) : (destroyHls s).currentUrlIndex = s.currentUrlIndex := rfl

/-- The single-engine predicate is decidable, so concrete sessions can be
checked by evaluation. -/
instance decSingleEngine (s : Session) : Decidable (SingleEngine s) :=
  inferInstanceAs (Decidable (s.liveEngines.length ≤ 1 ∧ ∀ e ∈ s.liveEngines, s.engine = some e))

/-- Helper: the index produced by handleRetry is the successor while
further candidates remain, and 0 otherwise. -/
theorem handleRetry_index (s : Session) :
    (handleRetry s).currentUrlIndex =
      if s.currentUrlIndex < s.urls.length - 1 then s.currentUrlIndex + 1 else 0 := by
  simp only [handleRetry, destroyHls_urls, destroyHls_index]
  split
  · rw [(loadVideo_keeps_position _).2]
  · rw [(loadVideo_keeps_position _).2]

/-- Claim C3: retry advances the candidate index by one while further
candidates remain and wraps to index 0 from the last one, in both cases
re-entering the connecting status (never stopping) whenever the new
candidate resolves; and in the three-candidate scenario three fatal
errors each followed by retry move the index 0 to 1 to 2 and back to 0,
each retry ending in the connecting status. -/
theorem handleRetry_wraps (s : Session) :
    (s.currentUrlIndex + 1 < s.urls.length →
      (handleRetry s).currentUrlIndex = s.currentUrlIndex + 1) ∧
    (s.currentUrlIndex + 1 = s.urls.length →
      (handleRetry s).currentUrlIndex = 0) ∧
    (∀ u, s.urls.get? (handleRetry s).currentUrlIndex = some u →
      (processUrl s.pageProtocol u).isSome = true →
      (handleRetry s).status = StreamStatus.connecting) ∧
    (scenarioStep1.currentUrlIndex = 1 ∧ scenarioStep2.currentUrlIndex = 2 ∧
      scenarioStep3.currentUrlIndex = 0 ∧
      scenarioStep1.status = StreamStatus.connecting ∧
      scenarioStep2.status = StreamStatus.connecting ∧
      scenarioStep3.status = StreamStatus.connecting) := by
  refine ⟨?_, ?_, ?_, by decide⟩
  · intro h
    rw [handleRetry_index, if_pos (by omega)]
  · intro h
    rw [handleRetry_index, if_neg (by omega)]
  · intro u hu hok
    rw [handleRetry_index] at hu
    simp only [handleRetry, destroyHls_urls, destroyHls_index]
    split
    · rename_i hc
      rw [if_pos hc] at hu
      exact loadVideo_connecting _ u hu hok
    · rename_i hc
      rw [if_neg hc] at hu
      exact loadVideo_connecting _ u hu hok

/-- Witness for handleRetry_wraps: the advancing retry, the wrapping retry
and the connecting status at concrete scenario states. -/
theorem handleRetry_wraps_witness :
    (handleRetry (fatalErrorStep (loadVideo scenarioSession))).currentUrlIndex = 1 ∧
    (handleRetry (fatalErrorStep scenarioStep2)).currentUrlIndex = 0 ∧
    (handleRetry (fatalErrorStep scenarioStep2)).status = StreamStatus.connecting :=
  ⟨(handleRetry_wraps (fatalErrorStep (loadVideo scenarioSession))).1 (by decide),
   (handleRetry_wraps (fatalErrorStep scenarioStep2)).2.1 (by decide),
   (handleRetry_wraps (fatalErrorStep scenarioStep2)).2.2.1 "http://h/1.m3u8"
     (by decide) (by decide)⟩

/-- The one-candidate adaptive session used by the double-load
counterexample. -/
def singleUrlSession : Session :=
  { urls := ["http://h/a.m3u8"], pageProtocol := "http:", hlsSupported := true,
    currentUrlIndex := 0, status := StreamStatus.idle, engine := none,
    liveEngines := [], nextEngineId := 0 }

/-- Claim C4, counterexample: loadVideo never destroys an already attached
engine instance, so the load-load sequence (as happens when the channel
changes, or when the wrapping retry both calls loadVideo directly and
retriggers the effect hook) leaves TWO live engine instances in one
session. -/
theorem double_load_two_engines_cex :
    (loadVideo (loadVideo singleUrlSession)).liveEngines.length = 2 ∧
    ¬ SingleEngine (loadVideo (loadVideo singleUrlSession)) := by
  constructor
  · decide
  · decide

/-- Helper: destroying the stored instance of a single-engine session
leaves no live engine instance and no reference. -/
theorem destroyHls_clears (s : Session) (h : SingleEngine s) :
    (destroyHls s).liveEngines = [] ∧ (destroyHls s).engine = none := by
  obtain ⟨hlen, hall⟩ := h
  refine ⟨?_, rfl⟩
  rcases hs : s.liveEngines with _ | ⟨e, rest⟩
  · simp only [destroyHls]
    rcases s.engine <;> simp [hs]
  · rcases rest with _ | ⟨e2, r2⟩
    · have he : s.engine = some e := hall e (by rw [hs]; exact List.mem_cons_self e [])
      simp only [destroyHls, he, hs]
      simp
    · rw [hs] at hlen
      simp at hlen

/-- Helper: loadVideo on a session with no live engine instance yields a
single-engine session (it creates at most one new instance and stores a
reference to exactly that one). -/
theorem loadVideo_single (s : Session) (hclean : s.liveEngines = []) :
    SingleEngine (loadVideo s) := by
  unfold loadVideo
  rcases h1 : s.urls.get? s.currentUrlIndex with _ | orig
  · exact ⟨by simp [hclean], by intro e he; simp [hclean] at he⟩
  · simp only [h1]
    rcases h2 : processUrl s.pageProtocol orig with _ | url
    · exact ⟨by simp [hclean], by intro e he; simp [hclean] at he⟩
    · simp only [h2]
      split
      · refine ⟨by simp [hclean], ?_⟩
        intro e he
        simp [hclean] at he
        simp [he]
      · exact ⟨by simp [hclean], by intro e he; simp [hclean] at he⟩

/-- Claim C4, amended: the inline detach of retry and select-source is
idempotent, always leaves the engine reference cleared, and together with
the subsequent single engine creation of loadVideo preserves the
at-most-one-live-engine invariant — retry and select-source never
duplicate a live engine instance; loadVideo alone, however, does not
detach first (see the counterexample), so only load operations preceded
by a detach keep the invariant. -/
theorem engine_detach_invariant (s : Session) (h : SingleEngine s) :
    destroyHls (destroyHls s) = destroyHls s ∧
    (destroyHls s).engine = none ∧
    SingleEngine (destroyHls s) ∧
    SingleEngine (handleRetry s) ∧
    (∀ i, SingleEngine (handleSourceSelect i s)) ∧
    SingleEngine (loadVideo (destroyHls s)) := by
  obtain ⟨hclear, hnone⟩ := destroyHls_clears s h
  have hsingle : SingleEngine (destroyHls s) :=
    ⟨by simp [hclear], by intro e he; rw [hclear] at he; simp at he⟩
  refine ⟨rfl, hnone, hsingle, ?_, ?_, loadVideo_single _ hclear⟩
  · simp only [handleRetry]
    split
    · exact loadVideo_single _ hclear
    · exact loadVideo_single _ hclear
  · intro i
    simp only [handleSourceSelect]
    split
    · exact h
    · exact loadVideo_single _ hclear

/-- Witness for engine_detach_invariant at a loaded session holding one
live engine instance. -/
theorem engine_detach_invariant_witness :
    SingleEngine (loadVideo singleUrlSession) ∧
    SingleEngine (handleRetry (loadVideo singleUrlSession)) ∧
    (destroyHls (loadVideo singleUrlSession)).engine = none :=
  ⟨by decide,
   (engine_detach_invariant (loadVideo singleUrlSession) (by decide)).2.2.2.1,
   (engine_detach_invariant (loadVideo singleUrlSession) (by decide)).2.1⟩

/-- The module-level cache of the live API route: the cached category list
(null before the first successful load) and its load timestamp. -/
structure CacheState where
  channelsCache : Option (List LiveCategory)
  lastCacheUpdate : Nat
deriving DecidableEq, Repr

/-- Outcome of the read-and-parse step of a reload: the categories field of
the parsed file (empty when absent), or a failure of any kind (file read
error or malformed JSON). -/
inductive LoadResult
  | ok (cats : List LiveCategory)
  | fail
deriving DecidableEq, Repr

/-- The five-minute cache lifetime (milliseconds). -/
def cacheTTL : Nat := 5 * 60 * 1000

/-- The try/catch reload of getChannelsData: on success the snapshot is
replaced and stamped, on failure the previous snapshot (or an empty list)
is returned and the state is untouched. -/
def runReload (st : CacheState) (now : Nat) (load : LoadResult) :
    List LiveCategory × CacheState :=
  match load with
  | LoadResult.ok cats => (cats, { channelsCache := some cats, lastCacheUpdate := now })
  | LoadResult.fail => (st.channelsCache.getD [], st)

/-- Embedding of getChannelsData of the live API route: a fresh snapshot is
returned as is, otherwise the reload runs with the given outcome. -/
def getChannelsData (st : CacheState) (now : Nat) (load : LoadResult) :
    List LiveCategory × CacheState :=
  match st.channelsCache with
  | some cached =>
    if now - st.lastCacheUpdate < cacheTTL then (cached, st)
    else runReload st now load
  | none => runReload st now load

/-- Claim C7: whenever the reload fails, getChannelsData returns the
previous snapshot when one exists and the empty snapshot otherwise, never
an exception (the embedding is total), and the failure leaves the cache
state untouched. -/
theorem getChannelsData_failure_fallback (st : CacheState) (now : Nat) :
    (∀ c, st.channelsCache = some c → (getChannelsData st now LoadResult.fail).1 = c) ∧
    (st.channelsCache = none → (getChannelsData st now LoadResult.fail).1 = []) ∧
    (getChannelsData st now LoadResult.fail).2 = st := by
  refine ⟨?_, ?_, ?_⟩
  · intro c hc
    simp only [getChannelsData, hc]
    split
    · rfl
    · simp [runReload, hc]
  · intro hc
    simp [getChannelsData, hc, runReload]
  · rcases hc : st.channelsCache with _ | c
    · simp [getChannelsData, hc, runReload]
    · simp only [getChannelsData, hc]
      split
      · rfl
      · rfl

/-- A concrete category for witnesses. -/
def demoCategory : LiveCategory :=
  { id := "卫视", name := "卫视", channels := [demoChannel], sortOrder := 0 }

/-- Witness for getChannelsData_failure_fallback with and without a
previous snapshot. -/
theorem getChannelsData_failure_fallback_witness :
    (getChannelsData { channelsCache := some [demoCategory], lastCacheUpdate := 0 } 0
        LoadResult.fail).1 = [demoCategory] ∧
    (getChannelsData { channelsCache := none, lastCacheUpdate := 0 } 0
        LoadResult.fail).1 = [] :=
  ⟨(getChannelsData_failure_fallback _ 0).1 [demoCategory] rfl,
   (getChannelsData_failure_fallback _ 0).2.1 rfl⟩

/-- What a proxy gateway handler does with a request: answer a client
error without any upstream fetch, or forward to the reconstructed
upstream URL. -/
inductive ProxyOutcome
  | clientError (status : Nat)
  | forward (targetUrl : String)
deriving DecidableEq, Repr

/-- Joins path segments with a slash (Array.prototype.join of the route). -/
def joinSlash (parts : List String) : String :=
  String.mk (joinWithChar '/' (parts.map String.data))

/-- Embedding of the GET handler of the proxy route: an empty path answers
400 before anything else; otherwise the first segment is the host and the
rest the upstream path, reconstructed under the https scheme. -/
def proxyGET (path : List String) (search : String) : ProxyOutcome :=
  match path with
  | [] => ProxyOutcome.clientError 400
  | host :: rest =>
    ProxyOutcome.forward ("https://" ++ host ++ "/" ++ joinSlash rest ++ search)

/-- Embedding of the HEAD handler of the proxy route, identical in its
path handling. -/
def proxyHEAD (path : List String) (search : String) : ProxyOutcome :=
  match path with
  | [] => ProxyOutcome.clientError 400
  | host :: rest =>
    ProxyOutcome.forward ("https://" ++ host ++ "/" ++ joinSlash rest ++ search)

/-- Claim C9: a GET or HEAD proxy request whose path is missing the host
segment answers status 400, an outcome that by construction performs no
upstream fetch. -/
theorem proxy_missing_host_rejected (search : String) :
    proxyGET [] search = ProxyOutcome.clientError 400 ∧
    proxyHEAD [] search = ProxyOutcome.clientError 400 :=
  ⟨rfl, rfl⟩

/-- The numeric rank of a quality tier used by the quality sort of the
channels query (the map object of the route). -/
def qualityOrder : Quality → Nat
  | Quality.FHD => 3
  | Quality.HD => 2
  | Quality.SD => 1

/-- The sort comparator switch of handleGetChannels, phrased as "the
comparator result is nonpositive": name and category delegate to the
locale comparison zhLe, quality sorts descending by rank (an absent
quality counts as SD), any other sort key compares everything equal. -/
def channelLe (zhLe : String → String → Bool) (sortKey : String) (a b : LiveChannel) : Bool :=
  if sortKey = "name" then zhLe a.name b.name
  else if sortKey = "category" then zhLe a.category b.category
  else if sortKey = "quality" then
    decide (qualityOrder (b.quality.getD Quality.SD) ≤ qualityOrder (a.quality.getD Quality.SD))
  else true

/-- The channel gathering of handleGetChannels: the channels of the
requested category (empty when the id is unknown), or all channels of all
categories when no category is requested. -/
def gatherChannels (cats : List LiveCategory) (categoryId : Option String) : List LiveChannel :=
  match categoryId with
  | some cid =>
    match cats.find? (fun c => c.id == cid) with
    | some c => c.channels
    | none => []
  | none => (cats.map (fun c => c.channels)).flatten

/-- The pagination metadata object of the channels response. -/
structure Pagination where
  page : Nat
  limit : Nat
  total : Nat
  pages : Nat
deriving DecidableEq, Repr

/-- Embedding of handleGetChannels of the live API route: gather, sort with
the comparator, slice from (page-1)*limit for limit entries, and report
page, limit, the total count and the rounded-up page count. -/
def handleGetChannels (zhLe : String → String → Bool) (cats : List LiveCategory)
    (categoryId : Option String) (sortKey : String) (page limit : Nat) :
    List LiveChannel × Pagination :=
  let allChannels := gatherChannels cats categoryId
  let sorted := stableSortBy (channelLe zhLe sortKey) allChannels
  let startIndex := (page - 1) * limit
  let paginated := (sorted.drop startIndex).take limit
  (paginated,
   { page := page, limit := limit, total := sorted.length,
     pages := (sorted.length + limit - 1) / limit })

/-- Helper: stable insertion grows the length by one. -/
theorem insertSorted_length (le : LiveChannel → LiveChannel → Bool) (a : LiveChannel)
    (l : List LiveChannel) : (insertSorted le a l).length = l.length + 1 := by
  induction l with
  | nil => rfl
  | cons b bs ih =>
    simp only [insertSorted]
    split
    · simp
    · simp [ih]

/-- Helper: the stable sort preserves the length. -/
theorem stableSortBy_length (le : LiveChannel → LiveChannel → Bool)
    (l : List LiveChannel) : (stableSortBy le l).length = l.length := by
  induction l with
  | nil => rfl
  | cons a as ih => simp [stableSortBy, insertSorted_length, ih]

/-- Helper: the rounded-up quotient (T + L - 1) / L is the least number of
pages of size L covering T entries. -/
theorem ceil_pages_bounds (T L : Nat) (hL : 1 ≤ L) :
    T ≤ ((T + L - 1) / L) * L ∧ ((T + L - 1) / L) * L < T + L := by
  have hd := Nat.div_add_mod (T + L - 1) L
  have hm := Nat.mod_lt (T + L - 1) (show 0 < L from hL)
  constructor
  · rw [Nat.mul_comm]
    omega
  · rw [Nat.mul_comm]
    omega

/-- Claim C10: for page p at least 1 and limit L at least 1 the channels
query answers exactly the slice of the sorted channel list from index
(p-1)*L up to but excluding p*L — hence at most L channels, and none when
(p-1)*L is past the end — and metadata where total is the full list
length and pages is the least page count whose pages*L covers total, that
is the rounded-up quotient of total by L. -/
theorem handleGetChannels_pagination (zhLe : String → String → Bool)
    (cats : List LiveCategory) (cid : Option String) (sortKey : String)
    (p L : Nat) (hp : 1 ≤ p) (hL : 1 ≤ L) :
    (handleGetChannels zhLe cats cid sortKey p L).1 =
      ((stableSortBy (channelLe zhLe sortKey) (gatherChannels cats cid)).take (p * L)).drop
        ((p - 1) * L) ∧
    (handleGetChannels zhLe cats cid sortKey p L).1.length ≤ L ∧
    ((gatherChannels cats cid).length ≤ (p - 1) * L →
      (handleGetChannels zhLe cats cid sortKey p L).1 = []) ∧
    (handleGetChannels zhLe cats cid sortKey p L).2.total =
      (gatherChannels cats cid).length ∧
    (handleGetChannels zhLe cats cid sortKey p L).2.page = p ∧
    (handleGetChannels zhLe cats cid sortKey p L).2.limit = L ∧
    (handleGetChannels zhLe cats cid sortKey p L).2.total ≤
      (handleGetChannels zhLe cats cid sortKey p L).2.pages * L ∧
    (handleGetChannels zhLe cats cid sortKey p L).2.pages * L <
      (handleGetChannels zhLe cats cid sortKey p L).2.total + L := by
  obtain ⟨q, rfl⟩ := Nat.exists_eq_succ_of_ne_zero (Nat.one_le_iff_ne_zero.mp hp)
  refine ⟨?_, ?_, ?_, ?_, rfl, rfl, ?_, ?_⟩
  · show (((stableSortBy (channelLe zhLe sortKey) (gatherChannels cats cid)).drop
        ((q + 1 - 1) * L)).take L) = _
    rw [List.drop_take]
    have harith : (q + 1) * L - (q + 1 - 1) * L = L := by
      simp [Nat.succ_mul]
    rw [harith]
  · show ((((stableSortBy (channelLe zhLe sortKey) (gatherChannels cats cid)).drop
        ((q + 1 - 1) * L)).take L)).length ≤ L
    exact List.length_take_le L _
  · intro hpast
    show (((stableSortBy (channelLe zhLe sortKey) (gatherChannels cats cid)).drop
        ((q + 1 - 1) * L)).take L) = []
    rw [List.drop_eq_nil_of_le, List.take_nil]
    rw [stableSortBy_length]
    exact hpast
  · exact stableSortBy_length _ _
  · exact (ceil_pages_bounds _ L hL).1
  · exact (ceil_pages_bounds _ L hL).2

/-- Witness for handleGetChannels_pagination at page 2, limit 1 over a
one-category catalog. -/
theorem handleGetChannels_pagination_witness :
    (handleGetChannels (fun _ _ => true) [demoCategory] none "name" 2 1).2.total =
      (gatherChannels [demoCategory] none).length ∧
    (handleGetChannels (fun _ _ => true) [demoCategory] none "name" 2 1).1.length ≤ 1 :=
  ⟨(handleGetChannels_pagination (fun _ _ => true) [demoCategory] none "name" 2 1
      (by decide) (by decide)).2.2.2.1,
   (handleGetChannels_pagination (fun _ _ => true) [demoCategory] none "name" 2 1
      (by decide) (by decide)).2.1⟩
